import Mathlib

/-!
Verification of the hica agent-framework core against its specification.

This file shallowly embeds the Python modules `hica/core.py`, `hica/models.py`,
`hica/tools.py`, `hica/memory.py` and `hica/agent.py`.

Modelling conventions:
* JSON-representable Python values are modelled by the inductive `JVal`; Python `None`
  is `JVal.jnull`.  Numbers are modelled by `Int` (none of the verified properties
  performs floating-point arithmetic; floats are routed, compared for type, and copied,
  never computed with).
* Python `dict`s are modelled as association lists with unique keys; `List.lookup`
  models `dict.get` / `dict[...]`, and `dictSet` models `d[k] = v` (in-place update of
  an existing key, append otherwise), matching insertion-ordered Python dicts.
* JSON text serialization (`json.dumps` / `json.loads`) is a faithful bijection between
  JSON trees and strings for the values involved, so serialization is modelled at the
  JSON-tree level: `Thread.to_json` produces the tree that `model_dump_json` would
  print, and `Thread.from_json` consumes the tree that `json.loads` would parse.
* Fallible Python code (raised exceptions) is modelled with `Except String`.
* External collaborators (the LLM provider, MCP client transport, local tool bodies,
  `json.loads` inside `serialize_mcp_result`) are passed in as explicit parameters or
  oracle data, following the spec's scoping of them as interfaces.
-/

/-- A JSON-representable Python value: `dict | str | float | int | list | bool | None`.
`jnull` models Python `None`. -/
inductive JVal where
  | jnull
  | jbool (b : Bool)
  | jnum (n : Int)
  | jstr (s : String)
  | jarr (xs : List JVal)
  | jobj (fields : List (String × JVal))

/-- Python `d[k] = v` on an insertion-ordered dict: update the first binding of `k`
in place, or append a new binding at the end. -/
def dictSet {α : Type} (fields : List (String × α)) (key : String) (v : α) :
    List (String × α) :=
  match fields with
  | [] => [(key, v)]
  | (k, w) :: rest =>
    if k = key then (k, v) :: rest else (k, w) :: dictSet rest key v

/-- Remove the binding of `key` (Python `del d[key]`, a no-op here when absent). -/
def dictErase {α : Type} (fields : List (String × α)) (key : String) :
    List (String × α) :=
  match fields with
  | [] => []
  | (k, w) :: rest => if k = key then rest else (k, w) :: dictErase rest key

/-- `Event` from models.py: the pydantic model declares exactly two fields,
`type : str` and `data : dict | str | float | int | list | None`.  It has no `step`
field. -/
structure Event where
  type : String
  data : JVal

/-- `Thread` from core.py: `thread_id` (a uuid4 string by default), the ordered event
list, and free-form `metadata`. -/
structure Thread where
  thread_id : String
  events : List Event
  metadata : List (String × JVal)

/-- `Thread.add_event` from core.py: builds `Event(type=type, step=step, data=data)`
and appends it.  The `Event` model declares only `type` and `data`, so pydantic's
default extra-ignore behaviour silently discards the `step` argument. -/
def Thread.add_event (t : Thread) (type : String) (data : JVal)
    (step : Option String := none) : Thread :=
  let _ := step
  { t with events := t.events ++ [{ type := type, data := data }] }

/-- `Thread.awaiting_human_response` from core.py: false on an empty event list,
otherwise true iff the last event's `data` is a dict whose `"intent"` entry equals
`"clarification"`.  The event's `type` is not examined. -/
def Thread.awaiting_human_response (t : Thread) : Bool :=
  match t.events.getLast? with
  | none => false
  | some last_event =>
    match last_event.data with
    | JVal.jobj fields =>
      match List.lookup "intent" fields with
      | some (JVal.jstr s) => s == "clarification"
      | _ => false
    | _ => false

/-- The resumability predicate as the SPEC words it (§3): the last event has type
`llm_response` AND its data mapping's `intent` equals `"clarification"`.  Declared only
to be compared against the source's `Thread.awaiting_human_response`. -/
def awaitingHumanResponseSpec (t : Thread) : Bool :=
  match t.events.getLast? with
  | none => false
  | some e =>
    e.type == "llm_response" &&
      (match e.data with
       | JVal.jobj fields =>
         match List.lookup "intent" fields with
         | some (JVal.jstr s) => s == "clarification"
         | _ => false
       | _ => false)

/-- A thread whose last event is a `user_input` (not `llm_response`) carrying
`data.intent = "clarification"`. -/
def cexThreadC1 : Thread :=
  { thread_id := "t-c1"
    events := [{ type := "user_input"
                 data := JVal.jobj [("intent", JVal.jstr "clarification")] }]
    metadata := [] }

/-- The JSON tree printed for one `Event` by `Thread.to_json`
(`model_dump_json(exclude_none=True)`): pydantic's `exclude_none` propagates into
nested models and omits the `data` key when its value is `None`; it does not remove
entries of plain dict values. -/
def Event.dumpJsonExcludeNone (e : Event) : JVal :=
  match e.data with
  | JVal.jnull => JVal.jobj [("type", JVal.jstr e.type)]
  | d => JVal.jobj [("type", JVal.jstr e.type), ("data", d)]

/-- `Thread.to_json` from core.py, modelled at the JSON-tree level:
`self.model_dump_json(exclude_none=True, indent=2)`. -/
def Thread.to_json (t : Thread) : JVal :=
  JVal.jobj [("thread_id", JVal.jstr t.thread_id),
             ("events", JVal.jarr (t.events.map Event.dumpJsonExcludeNone)),
             ("metadata", JVal.jobj t.metadata)]

/-- Pydantic validation of one event dict (`Event(**d)`): `type` must be a string,
`data` is required (the field has no default) but may be an explicit `null`; extra keys
such as `step` are ignored. -/
def Event.validateDict (j : JVal) : Except String Event :=
  match j with
  | JVal.jobj fields =>
    match List.lookup "type" fields with
    | some (JVal.jstr ty) =>
      match List.lookup "data" fields with
      | some d => Except.ok { type := ty, data := d }
      | none => Except.error "validation error: Event.data field required"
    | _ => Except.error "validation error: Event.type must be a string"
  | _ => Except.error "validation error: Event expects a mapping"

/-- Pydantic validation of a `List[Event]` field value: each item is validated in
order and the first failure aborts. -/
def validateEvents : List JVal → Except String (List Event)
  | [] => Except.ok []
  | x :: xs =>
    match Event.validateDict x with
    | Except.error e => Except.error e
    | Except.ok ev =>
      match validateEvents xs with
      | Except.error e => Except.error e
      | Except.ok evs => Except.ok (ev :: evs)

/-- `Thread(**data)` validation: `thread_id` has `default_factory=uuid4` (the fresh
uuid is passed in as `freshId`, since uuid generation is external randomness);
`events` defaults to `[]` and must be a list of valid event dicts; `metadata` defaults
to `{}`. -/
def Thread.ofDict (freshId : String) (j : JVal) : Except String Thread :=
  match j with
  | JVal.jobj fields =>
    match (match List.lookup "thread_id" fields with
           | none => Except.ok freshId
           | some (JVal.jstr s) => Except.ok s
           | some _ => Except.error "validation error: thread_id must be a string" :
            Except String String) with
    | Except.error e => Except.error e
    | Except.ok tid =>
      match (match List.lookup "events" fields with
             | none => Except.ok []
             | some (JVal.jarr xs) => validateEvents xs
             | some _ => Except.error "validation error: events must be a list" :
              Except String (List Event)) with
      | Except.error e => Except.error e
      | Except.ok evs =>
        match List.lookup "metadata" fields with
        | none => Except.ok { thread_id := tid, events := evs, metadata := [] }
        | some (JVal.jobj md) =>
          Except.ok { thread_id := tid, events := evs, metadata := md }
        | some _ => Except.error "validation error: metadata must be a mapping"
  | _ => Except.error "Invalid JSON: Thread expects a mapping"

/-- `Thread.from_json` from core.py: `json.loads` followed by `Thread(**data)`,
modelled at the JSON-tree level where `json.loads (json.dumps x) = x`.  A JSON parse
or pydantic validation failure is re-raised, modelled as `Except.error`. -/
def Thread.from_json (freshId : String) (j : JVal) : Except String Thread :=
  Thread.ofDict freshId j

/-- `Event.model_dump()` without `exclude_none` (used by the MongoDB backend):
the `data` key is always present, as an explicit `null` when `data` is `None`. -/
def Event.dump (e : Event) : JVal :=
  JVal.jobj [("type", JVal.jstr e.type), ("data", e.data)]

/-- `Thread.model_dump()` without `exclude_none` (used by the MongoDB backend). -/
def Thread.dump (t : Thread) : JVal :=
  JVal.jobj [("thread_id", JVal.jstr t.thread_id),
             ("events", JVal.jarr (t.events.map Event.dump)),
             ("metadata", JVal.jobj t.metadata)]

/-- A thread holding one event appended by `add_event` with a step label and
`data=None`, as the Agent Loop's `add_event` interface permits. -/
def cexThreadC2 : Thread :=
  Thread.add_event { thread_id := "t-c2", events := [], metadata := [] }
    "llm_response" JVal.jnull (some "tool_selection")

/-- A runtime Python value as seen by `serialize_mcp_result` in models.py.  The
constructors partition values by the attribute tests the function performs:
`pyModel` has `model_dump`; `pyDataObj` has a `data` attribute (and no `model_dump`);
`pyTextObj` has a `text` attribute (and neither of the former); `pyOpaque` is any
other non-primitive object, carrying its `str()` form. -/
inductive PyVal where
  | pyNone
  | pyBool (b : Bool)
  | pyInt (n : Int)
  | pyFloat (i : Int)
  | pyStr (s : String)
  | pyBytes (bs : List Nat)
  | pyList (xs : List PyVal)
  | pyDict (fields : List (String × PyVal))
  | pyModel (dump : List (String × PyVal))
  | pyDataObj (d : PyVal)
  | pyTextObj (t : PyVal)
  | pyOpaque (sform : String)

mutual

/-- The Python value obtained from a parsed JSON tree (`json.loads` output). -/
def JVal.toPy : JVal → PyVal
  | JVal.jnull => PyVal.pyNone
  | JVal.jbool b => PyVal.pyBool b
  | JVal.jnum n => PyVal.pyInt n
  | JVal.jstr s => PyVal.pyStr s
  | JVal.jarr xs => PyVal.pyList (JVal.toPyList xs)
  | JVal.jobj fs => PyVal.pyDict (JVal.toPyFields fs)

/-- Elementwise `JVal.toPy` on a JSON array. -/
def JVal.toPyList : List JVal → List PyVal
  | [] => []
  | x :: xs => JVal.toPy x :: JVal.toPyList xs

/-- Entrywise `JVal.toPy` on a JSON object. -/
def JVal.toPyFields : List (String × JVal) → List (String × PyVal)
  | [] => []
  | (k, v) :: fs => (k, JVal.toPy v) :: JVal.toPyFields fs

end

/-- The base64 alphabet. -/
def b64Char (n : Nat) : Char :=
  "ABCDEFGHIJKLMNOPQRSTUVWXYZabcdefghijklmnopqrstuvwxyz0123456789+/".toList.getD n 'A'

/-- RFC 4648 base64 of a byte sequence (`base64.b64encode(...).decode("utf-8")`). -/
def base64Encode : List Nat → String
  | a :: b :: c :: rest =>
    let n := a * 65536 + b * 256 + c
    String.mk [b64Char (n / 262144 % 64), b64Char (n / 4096 % 64),
               b64Char (n / 64 % 64), b64Char (n % 64)] ++ base64Encode rest
  | [a, b] =>
    let n := a * 65536 + b * 256
    String.mk [b64Char (n / 262144 % 64), b64Char (n / 4096 % 64),
               b64Char (n / 64 % 64), '=']
  | [a] =>
    let n := a * 65536
    String.mk [b64Char (n / 262144 % 64), b64Char (n / 4096 % 64), '=', '=']
  | [] => ""

/-- The UTF-8 bytes of a string (Python `s.encode("utf-8")`). -/
def utf8Bytes (s : String) : List Nat :=
  s.toUTF8.toList.map UInt8.toNat

/-- Python `str(result)` for the values that can reach the final fallback of
`serialize_mcp_result` (only byte strings and opaque objects do; every other
constructor is consumed by an earlier branch).  An opaque object carries its `str()`
form. -/
def pyStrCoerce : PyVal → String
  | PyVal.pyOpaque s => s
  | PyVal.pyBytes bs => String.intercalate "," (bs.map toString)
  | _ => ""

mutual

/-- `serialize_mcp_result` from models.py.  `jsonLoads` models `json.loads`, which
returns a JSON tree or fails (`JSONDecodeError`); `json.loads` applied to a non-string
raises `TypeError`, which the same `except` clause catches, returning `result.text`
unchanged.  Branch order follows the source: None, `model_dump`, list, dict with
`mime_type`+`data`, `.data` attribute, `.text` attribute, primitives (Python `bool`
being an `int` passes the `isinstance` test), catch-all `str()` coercion.  A dict with
`mime_type` and non-encodable `data` falls through the remaining attribute tests (a
dict has no `data`/`text` attributes) to the primitive passthrough. -/
def serialize_mcp_result (jsonLoads : String → Option JVal) : PyVal → PyVal
  | PyVal.pyNone => PyVal.pyNone
  | PyVal.pyModel dump => PyVal.pyDict dump
  | PyVal.pyList xs => PyVal.pyList (serializeMcpList jsonLoads xs)
  | PyVal.pyDict fs =>
    match List.lookup "mime_type" fs, List.lookup "data" fs with
    | some m, some (PyVal.pyStr s) =>
      PyVal.pyDict [("mime_type", m), ("data", PyVal.pyStr (base64Encode (utf8Bytes s)))]
    | some m, some (PyVal.pyBytes bs) =>
      PyVal.pyDict [("mime_type", m), ("data", PyVal.pyStr (base64Encode bs))]
    | _, _ => PyVal.pyDict fs
  | PyVal.pyDataObj d =>
    match d with
    | PyVal.pyStr s => PyVal.pyStr (base64Encode (utf8Bytes s))
    | PyVal.pyBytes bs => PyVal.pyStr (base64Encode bs)
    | _ => d
  | PyVal.pyTextObj t =>
    match t with
    | PyVal.pyStr s =>
      match jsonLoads s with
      | some j => JVal.toPy j
      | none => PyVal.pyStr s
    | _ => t
  | PyVal.pyStr s => PyVal.pyStr s
  | PyVal.pyFloat i => PyVal.pyFloat i
  | PyVal.pyInt n => PyVal.pyInt n
  | PyVal.pyBool b => PyVal.pyBool b
  | PyVal.pyBytes bs => PyVal.pyStr (pyStrCoerce (PyVal.pyBytes bs))
  | PyVal.pyOpaque s => PyVal.pyStr (pyStrCoerce (PyVal.pyOpaque s))

/-- The list comprehension `[serialize_mcp_result(item) for item in result]`. -/
def serializeMcpList (jsonLoads : String → Option JVal) : List PyVal → List PyVal
  | [] => []
  | x :: xs => serialize_mcp_result jsonLoads x :: serializeMcpList jsonLoads xs

end

/-- Whether a value has one of the types the docstring and return annotation of
`serialize_mcp_result` promise: `dict | str | float | int | list | None` (a Python
`bool` is an `int`). -/
def PyVal.isTopSerializable : PyVal → Bool
  | PyVal.pyNone | PyVal.pyBool _ | PyVal.pyInt _ | PyVal.pyFloat _
  | PyVal.pyStr _ | PyVal.pyList _ | PyVal.pyDict _ => true
  | _ => false

/-- A `parameters_json_schema` value as built by `_register_local_tool`
(`{"type": "object", "properties": ..., "required": ...}`): each property name maps to
its JSON-schema dict, and `required` lists the required property names. -/
structure ParamSchema where
  properties : List (String × List (String × JVal))
  required : List String

/-- `pydantic_ai.tools.ToolDefinition` as used by the registry: name, description and
the parameter schema. -/
structure ToolDefinition where
  name : String
  description : String
  parameters_json_schema : ParamSchema

/-- The pydantic annotation chosen for a field by `create_model_from_tool_schema`:
`int`, `float`, `str`, `bool`, `list`, `dict`, or the `Any` default. -/
inductive PyFieldType where
  | anyT
  | intT
  | floatT
  | strT
  | boolT
  | listT
  | dictT
deriving DecidableEq

/-- One field of a dynamically created pydantic model: its annotation and whether it
was declared required (pydantic `...`) or optional (a default value). -/
structure ModelField where
  name : String
  fieldType : PyFieldType
  required : Bool

/-- A model produced by `pydantic.create_model`. -/
structure CreatedModel where
  model_name : String
  fields : List ModelField

/-- The `schema.get("type") == ...` chain of `create_model_from_tool_schema` for one
property schema dict. -/
def annotationFor (fs : List (String × JVal)) : PyFieldType :=
  match List.lookup "type" fs with
  | some (JVal.jstr "integer") => PyFieldType.intT
  | some (JVal.jstr "number") => PyFieldType.floatT
  | some (JVal.jstr "string") => PyFieldType.strT
  | some (JVal.jstr "boolean") => PyFieldType.boolT
  | some (JVal.jstr "array") => PyFieldType.listT
  | some (JVal.jstr "object") => PyFieldType.dictT
  | _ => PyFieldType.anyT

/-- `create_model_from_tool_schema` from tools.py: the model is named after the tool
(spaces replaced by underscores) and gets one field per schema property with the
mapped annotation; every field definition is `(annotation, ...)`, i.e. required — the
schema's `required` list is never consulted. -/
def create_model_from_tool_schema (tool_def : ToolDefinition) : CreatedModel :=
  { model_name := tool_def.name.replace " " "_"
    fields := tool_def.parameters_json_schema.properties.map
      (fun p => { name := p.1, fieldType := annotationFor p.2, required := true }) }

/-- The ephemeral model as the SPEC words it (§4.4): same properties and type mapping,
but a field is required iff its name is listed in the schema's `required` set.
Declared only to be compared against `create_model_from_tool_schema`. -/
def createModelSpec (tool_def : ToolDefinition) : CreatedModel :=
  { model_name := tool_def.name.replace " " "_"
    fields := tool_def.parameters_json_schema.properties.map
      (fun p => { name := p.1, fieldType := annotationFor p.2,
                  required := tool_def.parameters_json_schema.required.contains p.1 }) }

/-- A tool descriptor with one property `a` of type string and an empty `required`
list. -/
def cexToolDefC4 : ToolDefinition :=
  { name := "echo tool"
    description := "Echo."
    parameters_json_schema :=
      { properties := [("a", [("type", JVal.jstr "string")])], required := [] } }

/-- Modelled from the spec: `ToolResult` is imported from `hica.models` in tools.py
but its definition is missing from src/ (models.py does not declare it); §3 "Tool
Result" specifies the normalized triple `llm_content`, `display_content`,
`raw_result`. -/
structure ToolResult where
  llm_content : String
  display_content : String
  raw_result : PyVal

/-- A registered local tool: a `BaseTool` instance (possibly a `FunctionToolWrapper`
around a plain function).  Its `execute` body is arbitrary Python, modelled as a
function from the argument mapping to a raised exception or a returned
`ToolResult`. -/
structure LocalTool where
  name : String
  description : String
  execute : List (String × JVal) → Except String ToolResult

/-- `ToolRegistry` from tools.py: the four dict attributes.  An MCP entry pairs an
opaque reference to its owning `MCPConnectionManager` (a `Nat` identity) with the
tool definition. -/
structure ToolRegistry where
  local_tools : List (String × LocalTool)
  local_tool_defs : List (String × ToolDefinition)
  mcp_tools : List (String × (Nat × ToolDefinition))
  all_tool_defs : List (String × ToolDefinition)

/-- `ToolRegistry.remove_tool`: delete a local tool from all three of its maps, else
delete an MCP tool from its two maps, else only log a warning. -/
def ToolRegistry.remove_tool (r : ToolRegistry) (name : String) : ToolRegistry :=
  if (List.lookup name r.local_tools).isSome then
    { r with local_tools := dictErase r.local_tools name
             local_tool_defs := dictErase r.local_tool_defs name
             all_tool_defs := dictErase r.all_tool_defs name }
  else if (List.lookup name r.mcp_tools).isSome then
    { r with mcp_tools := dictErase r.mcp_tools name
             all_tool_defs := dictErase r.all_tool_defs name }
  else r

/-- The exceptions `ToolRegistry.execute_tool` can surface: the
`ValueError("Tool ... not found")` for an unregistered name, or an exception raised by
the tool body / remote call. -/
inductive ToolExecError where
  | unknownTool (name : String)
  | toolRaised (msg : String)

/-- `ToolRegistry.execute_tool` from tools.py.  The branch chain mirrors the source:
a local tool's `execute` is awaited; an MCP tool is dispatched through its connection
and the raw MCP result is normalized into a `ToolResult` (that whole branch body acts
on external-library values — the remote call, `json.dumps` and content blocks — and is
abstracted as `mcpExec`); any other name raises `ValueError`.  The registry value is
returned unchanged alongside the result: the method mutates none of the four maps. -/
def ToolRegistry.execute_tool
    (mcpExec : Nat → String → List (String × JVal) → Except String ToolResult)
    (r : ToolRegistry) (name : String) (arguments : List (String × JVal)) :
    Except ToolExecError ToolResult × ToolRegistry :=
  match List.lookup name r.local_tools with
  | some tool => ((tool.execute arguments).mapError ToolExecError.toolRaised, r)
  | none =>
    match List.lookup name r.mcp_tools with
    | some entry => ((mcpExec entry.1 name arguments).mapError ToolExecError.toolRaised, r)
    | none => (Except.error (ToolExecError.unknownTool name), r)

/-- `Agent.execute_tool` from agent.py (with `add_event=True` and a thread): append a
`tool_call` event, dispatch through the registry, pass the result through
`serialize_mcp_result` (abstracted as `serFn`, acting on the `ToolResult` object), and
append a `tool_response` event; an exception from the registry propagates after the
`tool_call` event was already appended. -/
def Agent.execute_tool
    (mcpExec : Nat → String → List (String × JVal) → Except String ToolResult)
    (serFn : ToolResult → JVal) (r : ToolRegistry) (t : Thread)
    (tool_name : String) (arguments : List (String × JVal)) :
    Except ToolExecError JVal × Thread × ToolRegistry :=
  let t1 := t.add_event "tool_call"
    (JVal.jobj [("intent", JVal.jstr tool_name), ("arguments", JVal.jobj arguments)])
  match ToolRegistry.execute_tool mcpExec r tool_name arguments with
  | (Except.error e, r') => (Except.error e, t1, r')
  | (Except.ok res, r') =>
    let ser := serFn res
    (Except.ok ser,
     t1.add_event "tool_response"
       (JVal.jobj [("response", ser), ("source", JVal.jstr "ToolRegistry")]),
     r')

/-- One tool as reported by the MCP server's `list_tools()`. -/
structure MCPToolInfo where
  name : String
  description : String
  inputSchema : ParamSchema

/-- The underlying `fastmcp.Client` of an `MCPConnectionManager`: its connection flag
and the remote server's behaviour (tool catalog and call results), which the manager
only reaches while connected. -/
structure MCPClientState where
  connected : Bool
  serverTools : List MCPToolInfo
  serverCallResult : String → Option (List (String × JVal)) → PyVal

/-- A network interaction with the MCP server, recorded so a theorem can state that
no contact happens in the disconnected state. -/
inductive ServerOp where
  | listToolsOp
  | callToolOp (name : String) (args : Option (List (String × JVal)))

/-- `MCPConnectionManager.call_tool`: raise `RuntimeError` when the client is not
connected, otherwise delegate to `self.client.call_tool`.  The second component lists
the server interactions performed. -/
def MCPConnectionManager.call_tool (c : MCPClientState) (name : String)
    (args : Option (List (String × JVal))) : Except String PyVal × List ServerOp :=
  if c.connected then
    (Except.ok (c.serverCallResult name args), [ServerOp.callToolOp name args])
  else
    (Except.error "Not connected. Call connect() first.", [])

/-- `MCPConnectionManager.list_tools`: raise `RuntimeError` when the client is not
connected, otherwise delegate to `self.client.list_tools`. -/
def MCPConnectionManager.list_tools (c : MCPClientState) :
    Except String (List MCPToolInfo) × List ServerOp :=
  if c.connected then
    (Except.ok c.serverTools, [ServerOp.listToolsOp])
  else
    (Except.error "Not connected. Call connect() first.", [])

/-- The file backend of `ConversationMemoryStore`: one file `{thread_id}.json` per
thread under the context directory, holding the `to_json` payload. -/
structure FileStoreState where
  files : List (String × JVal)

/-- The SQL backend: table `threads (id TEXT PRIMARY KEY, data TEXT)`, the `data`
column holding the `to_json` payload. -/
structure SqlStoreState where
  rows : List (String × JVal)

/-- The MongoDB backend (`MongoMemoryStore`): one document per thread keyed by its
`thread_id` field, holding `model_dump()` (without `exclude_none`). -/
structure MongoStoreState where
  docs : List (String × JVal)

/-- `ConversationMemoryStore.set`, file branch: reject an empty `thread_id`
(falsy in Python), else overwrite `{thread_id}.json` with `thread.to_json()`. -/
def ConversationMemoryStore.setFile (st : FileStoreState) (t : Thread) :
    Except String FileStoreState :=
  if t.thread_id = "" then
    Except.error "Thread must have a thread_id before storing."
  else
    Except.ok { files := dictSet st.files t.thread_id (Thread.to_json t) }

/-- `ConversationMemoryStore.get`, file branch: `None` when the file does not exist,
else `Thread.from_json` of the file's contents (a validation failure is raised). -/
def ConversationMemoryStore.getFile (st : FileStoreState)
    (thread_id freshId : String) : Except String (Option Thread) :=
  match List.lookup thread_id st.files with
  | none => Except.ok none
  | some j => (Thread.from_json freshId j).map some

/-- `ConversationMemoryStore.delete`, file branch: unlink the file if it exists; an
absent file is not an error. -/
def ConversationMemoryStore.deleteFile (st : FileStoreState) (thread_id : String) :
    FileStoreState :=
  { files := dictErase st.files thread_id }

/-- `ConversationMemoryStore.set`, SQL branch: `REPLACE INTO threads` (an upsert)
with the `to_json` payload, after the same empty-id check. -/
def ConversationMemoryStore.setSql (st : SqlStoreState) (t : Thread) :
    Except String SqlStoreState :=
  if t.thread_id = "" then
    Except.error "Thread must have a thread_id before storing."
  else
    Except.ok { rows := dictSet st.rows t.thread_id (Thread.to_json t) }

/-- `ConversationMemoryStore.get`, SQL branch: `None` when no row matches, else
`Thread.from_json` of the stored payload. -/
def ConversationMemoryStore.getSql (st : SqlStoreState)
    (thread_id freshId : String) : Except String (Option Thread) :=
  match List.lookup thread_id st.rows with
  | none => Except.ok none
  | some j => (Thread.from_json freshId j).map some

/-- `ConversationMemoryStore.delete`, SQL branch: `DELETE FROM threads WHERE id = ?`;
deleting a missing row is not an error. -/
def ConversationMemoryStore.deleteSql (st : SqlStoreState) (thread_id : String) :
    SqlStoreState :=
  { rows := dictErase st.rows thread_id }

/-- `ConversationMemoryStore.set`, mongo branch (`MongoMemoryStore.set`):
`replace_one({"thread_id": key}, value.model_dump(), upsert=True)` after the same
empty-id check. -/
def ConversationMemoryStore.setMongo (st : MongoStoreState) (t : Thread) :
    Except String MongoStoreState :=
  if t.thread_id = "" then
    Except.error "Thread must have a thread_id before storing."
  else
    Except.ok { docs := dictSet st.docs t.thread_id (Thread.dump t) }

/-- `ConversationMemoryStore.get`, mongo branch: `find_one({"thread_id": key})`, and
`Thread(**doc)` on a hit (any extra `_id` field is ignored by pydantic). -/
def ConversationMemoryStore.getMongo (st : MongoStoreState)
    (thread_id freshId : String) : Except String (Option Thread) :=
  match List.lookup thread_id st.docs with
  | none => Except.ok none
  | some j => (Thread.ofDict freshId j).map some

/-- `ConversationMemoryStore.delete`, mongo branch: `delete_one`; absent is not an
error. -/
def ConversationMemoryStore.deleteMongo (st : MongoStoreState) (thread_id : String) :
    MongoStoreState :=
  { docs := dictErase st.docs thread_id }

/-- The `tool_results` accumulation of `Agent._generate_final_response`: iterate the
thread's events in order and assign `tool_results[event.type] = event.data` for every
`tool_response` or `user_input` event, so a later event of the same type overwrites an
earlier one. -/
def collectRawResults (events : List Event) : List (String × JVal) :=
  events.foldl
    (fun acc e =>
      if e.type = "tool_response" ∨ e.type = "user_input" then dictSet acc e.type e.data
      else acc)
    []

/-- `FinalResponse(...).model_dump(exclude_none=True)`: fields in declaration order;
`summary` is dropped when `None`; `raw_results` is always a dict here (possibly
empty), never `None`, so it is always present. -/
def finalResponseDump (message : String) (summary : Option String)
    (raw : List (String × JVal)) : JVal :=
  JVal.jobj ([("intent", JVal.jstr "final_response"), ("message", JVal.jstr message)]
    ++ (match summary with
        | some s => [("summary", JVal.jstr s)]
        | none => [])
    ++ [("raw_results", JVal.jobj raw)])

/-- `Agent._generate_final_response`: the gateway call (with `add_event=False`)
returns `message` and `summary`; the collected `tool_results` become `raw_results`,
and one `llm_response` event carrying the dumped `FinalResponse` is appended (the
source labels it with the step string "final_reponse", which the `Event` model
discards). -/
def Agent.generate_final_response (t : Thread) (message : String)
    (summary : Option String) : Thread :=
  let tool_results := collectRawResults t.events
  t.add_event "llm_response" (finalResponseDump message summary tool_results)
    (some "final_reponse")

/-- `AgentConfig` from agent.py: the provider identifier, the base system prompt, and
the optional summarization threshold (`Optional[int]`, default 20). -/
structure AgentConfig where
  model : String
  system_prompt : String
  max_events_before_summarization : Option Int

/-- `Agent.summarize_thread_with_llm` with the default `keep_last_n = 5`: the gateway
produces `summary` (with `add_event=False`, so no event is appended for the call), and
`thread.events` is replaced by `[summary_event] + thread.events[-5:]`.  The source
prepends a plain dict with exactly the keys `type` and `data`; it is modelled as the
equally-shaped `Event`. -/
def Agent.summarize_thread_with_llm (t : Thread) (summary : String) : Thread :=
  { t with
    events := { type := "context_summary", data := JVal.jstr summary }
      :: t.events.drop (t.events.length - 5) }

/-- The guard on entry to `agent_loop`:
`if self.config.max_events_before_summarization and len(thread.events) > ...`.
Python truthiness makes `None` and `0` both skip summarization. -/
def entrySummarizationCond (cfg : AgentConfig) (t : Thread) : Bool :=
  match cfg.max_events_before_summarization with
  | none => false
  | some m => decide (m ≠ 0) && decide (m < (t.events.length : Int))

/-- The oracle data consumed by one iteration of the agent loop: the validated
`ToolSelection` returned by the gateway (`intent`, `reason`), and — depending on the
branch taken — the validated parameter fill, the dispatch outcome (the serialized
`tool_response` payload, or a raised exception), and the final-response fields. -/
structure IterPlan where
  intent : String
  reason : String
  fillArgs : List (String × JVal)
  toolResult : Except String JVal
  finalMessage : String
  finalSummary : Option String

/-- The `while True` body of `Agent.agent_loop`, returning the list of thread
snapshots yielded after the initial yield.  Per iteration: `select_tool` validates the
intent against the registered names plus `done`/`clarification` (an invalid intent
raises inside the gateway before any event is appended, killing the generator) and
appends the selection `llm_response`; `done` generates the final response and stops;
`clarification` yields once more and stops; otherwise `fill_parameters` appends the
`llm_parameters` event (the selected intent is a key of `all_tool_defs`, so its lookup
succeeds), and `execute_tool` appends the `tool_call` event, dispatches, and on
success appends the `tool_response` event and yields; a dispatch exception propagates
after the `tool_call` append, so no further snapshot is yielded.  An exhausted oracle
models a pending provider call: no further yields. -/
def agentLoopSteps (reg : ToolRegistry) : Thread → List IterPlan → List Thread
  | _, [] => []
  | t, p :: rest =>
    let valid := (reg.all_tool_defs.map Prod.fst) ++ ["done", "clarification"]
    if valid.contains p.intent then
      let t1 := t.add_event "llm_response"
        (JVal.jobj [("intent", JVal.jstr p.intent), ("reason", JVal.jstr p.reason)])
        (some "ToolSeclection")
      if p.intent = "done" then
        [t1, Agent.generate_final_response t1 p.finalMessage p.finalSummary]
      else if p.intent = "clarification" then
        [t1, t1]
      else
        let t2 := t1.add_event "llm_response"
          (JVal.jobj [("intent", JVal.jstr p.intent),
                      ("arguments", JVal.jobj p.fillArgs)])
          (some "llm_parameters")
        let t3 := t2.add_event "tool_call"
          (JVal.jobj [("intent", JVal.jstr p.intent),
                      ("arguments", JVal.jobj p.fillArgs)])
        match p.toolResult with
        | Except.error _ => [t1, t2]
        | Except.ok v =>
          let t4 := t3.add_event "tool_response"
            (JVal.jobj [("response", v), ("source", JVal.jstr "ToolRegistry")])
          t1 :: t2 :: t4 :: agentLoopSteps reg t4 rest
    else []

/-- `Agent.agent_loop`: summarize on entry when the guard fires, yield the initial
state, then run the loop body.  The result is the list of yielded thread
snapshots. -/
def Agent.agent_loop (cfg : AgentConfig) (reg : ToolRegistry) (t : Thread)
    (summaryText : String) (plans : List IterPlan) : List Thread :=
  let t0 := if entrySummarizationCond cfg t then
    Agent.summarize_thread_with_llm t summaryText else t
  t0 :: agentLoopSteps reg t0 plans

/-- Thread `b` extends thread `a` purely by appended events. -/
def eventsExtend (a b : Thread) : Prop :=
  ∃ l, b.events = a.events ++ l

/-- C1, counterexample: the code's predicate is true on a thread whose last event is
NOT an `llm_response`, so the claimed "if and only if" (which requires the last event
to have type `llm_response`) is false on the code. -/
theorem claim1_counterexample :
    Thread.awaiting_human_response cexThreadC1 = true ∧
      awaitingHumanResponseSpec cexThreadC1 = false := by
  exact ⟨rfl, rfl⟩

/-- C1, amended: `awaiting_human_response(T)` is true iff T's event list is non-empty
and its LAST event's data is a mapping whose `intent` equals "clarification"; the last
event's type is not examined. -/
theorem claim1_awaiting_human_response_amended (t : Thread) :
    t.awaiting_human_response = true ↔
      ∃ pre e fields, t.events = pre ++ [e] ∧ e.data = JVal.jobj fields ∧
        List.lookup "intent" fields = some (JVal.jstr "clarification") := by
  obtain ⟨tid, es, md⟩ := t
  unfold Thread.awaiting_human_response
  dsimp only
  induction es using List.reverseRecOn with
  | nil =>
    simp only [List.getLast?_nil]
    constructor
    · intro h; cases h
    · rintro ⟨pre, e, fields, hpre, -, -⟩
      exact absurd hpre (by simp)
  | append_singleton pre e ih =>
    clear ih
    rw [List.getLast?_concat]
    constructor
    · intro h
      obtain ⟨ty, data⟩ := e
      dsimp only at h
      cases data with
      | jobj fields =>
        dsimp only at h
        cases hint : List.lookup "intent" fields with
        | none => simp [hint] at h
        | some v =>
          rw [hint] at h
          cases v with
          | jstr s =>
            have hs : s = "clarification" := by simpa using h
            exact ⟨pre, ⟨ty, JVal.jobj fields⟩, fields, rfl, rfl, by rw [hint, hs]⟩
          | jnull => simp at h
          | jbool b => simp at h
          | jnum n => simp at h
          | jarr xs => simp at h
          | jobj fs => simp at h
      | jnull => simp at h
      | jbool b => simp at h
      | jnum n => simp at h
      | jstr s => simp at h
      | jarr xs => simp at h
    · rintro ⟨pre', e', fields, hpre, hdata, hint⟩
      have he : e = e' := by
        have h1 := congrArg List.getLast? hpre
        rw [List.getLast?_concat, List.getLast?_concat] at h1
        exact Option.some.inj h1
      subst he
      dsimp only
      rw [hdata]
      simp [hint]

/-- Validation inverts serialization for a single event with non-`None` data. -/
theorem Event.validateDict_dumpJsonExcludeNone (e : Event) (h : e.data ≠ JVal.jnull) :
    Event.validateDict (Event.dumpJsonExcludeNone e) = Except.ok e := by
  obtain ⟨ty, data⟩ := e
  cases data with
  | jnull => exact absurd rfl h
  | jbool b => rfl
  | jnum n => rfl
  | jstr s => rfl
  | jarr xs => rfl
  | jobj fs => rfl

/-- Validation inverts the plain (MongoDB-style) dump for every event. -/
theorem Event.validateDict_dump (e : Event) :
    Event.validateDict (Event.dump e) = Except.ok e := by
  obtain ⟨ty, data⟩ := e
  rfl

/-- List version of `Event.validateDict_dumpJsonExcludeNone`. -/
theorem validateEvents_dumpJsonExcludeNone (es : List Event)
    (h : ∀ e ∈ es, e.data ≠ JVal.jnull) :
    validateEvents (es.map Event.dumpJsonExcludeNone) = Except.ok es := by
  induction es with
  | nil => rfl
  | cons e rest ih =>
    have he := Event.validateDict_dumpJsonExcludeNone e (h e (by simp))
    have hr := ih (fun x hx => h x (by simp [hx]))
    simp [validateEvents, he, hr]

/-- List version of `Event.validateDict_dump`. -/
theorem validateEvents_dump (es : List Event) :
    validateEvents (es.map Event.dump) = Except.ok es := by
  induction es with
  | nil => rfl
  | cons e rest ih =>
    simp [validateEvents, Event.validateDict_dump, ih]

/-- Round trip at the validation level: `Thread(**json.loads(t.to_json()))` returns
the thread itself when no event's data is `None`. -/
theorem thread_toJson_ofDict (t : Thread) (fresh : String)
    (hnn : ∀ e ∈ t.events, e.data ≠ JVal.jnull) :
    Thread.ofDict fresh (Thread.to_json t) = Except.ok t := by
  obtain ⟨tid, es, md⟩ := t
  have hev := validateEvents_dumpJsonExcludeNone es hnn
  simp [Thread.to_json, Thread.ofDict, List.lookup, hev]

/-- Round trip for the MongoDB dump: `Thread(**t.model_dump())` returns the thread
itself for every thread (the `data` key is always present there). -/
theorem thread_dump_ofDict (t : Thread) (fresh : String) :
    Thread.ofDict fresh (Thread.dump t) = Except.ok t := by
  obtain ⟨tid, es, md⟩ := t
  have hev := validateEvents_dump es
  simp [Thread.dump, Thread.ofDict, List.lookup, hev]

/-- C2, counterexample: an event appended with `data=None` is serialized without a
`data` key (`exclude_none=True`), and deserialization then fails because the pydantic
`Event.data` field is required, so the round trip does not return the thread. -/
theorem claim2_counterexample :
    Thread.from_json "fresh" (Thread.to_json cexThreadC2) =
        Except.error "validation error: Event.data field required" ∧
      Thread.from_json "fresh" (Thread.to_json cexThreadC2) ≠ Except.ok cexThreadC2 := by
  refine ⟨rfl, ?_⟩
  intro h
  exact Except.noConfusion ((rfl :
    Thread.from_json "fresh" (Thread.to_json cexThreadC2) =
      Except.error "validation error: Event.data field required").symm.trans h)

/-- C2, amended: for every thread whose events all carry non-`None` data,
`from_json (to_json T)` returns a thread equal to T by value over `thread_id`, the full
event list (types and data), and `metadata`.  Step labels need no preserving: the
`Event` model has no `step` field, so `add_event` already discards them; an event with
`data=None` makes the round trip fail instead. -/
theorem claim2_round_trip_amended (t : Thread) (fresh : String)
    (hnn : ∀ e ∈ t.events, e.data ≠ JVal.jnull) :
    Thread.from_json fresh (Thread.to_json t) = Except.ok t :=
  thread_toJson_ofDict t fresh hnn

/-- C2 witness: the amended round trip evaluated on a concrete two-event thread. -/
theorem claim2_round_trip_amended_witness :
    Thread.from_json "w"
        (Thread.to_json
          { thread_id := "t-w2"
            events := [{ type := "user_input", data := JVal.jstr "hi" },
                       { type := "llm_response"
                         data := JVal.jobj [("intent", JVal.jstr "done")] }]
            metadata := [("user_metadata", JVal.jnull)] }) =
      Except.ok
        { thread_id := "t-w2"
          events := [{ type := "user_input", data := JVal.jstr "hi" },
                     { type := "llm_response"
                       data := JVal.jobj [("intent", JVal.jstr "done")] }]
          metadata := [("user_metadata", JVal.jnull)] } :=
  claim2_round_trip_amended _ "w" (by
    intro e he
    simp only [List.mem_cons, List.not_mem_nil, or_false] at he
    rcases he with he | he <;> (subst he; intro hc; exact JVal.noConfusion hc))

/-- Looking up the key just set finds the new value. -/
theorem lookup_dictSet_self {α : Type} (l : List (String × α)) (k : String) (v : α) :
    List.lookup k (dictSet l k v) = some v := by
  induction l with
  | nil => simp [dictSet, List.lookup]
  | cons p rest ih =>
    obtain ⟨k0, w⟩ := p
    by_cases h : k0 = k
    · subst h
      simp [dictSet, List.lookup]
    · have hb : (k == k0) = false := beq_eq_false_iff_ne.mpr (fun hh => h hh.symm)
      simp [dictSet, if_neg h, List.lookup, hb, ih]

/-- Setting one key leaves lookups of other keys unchanged. -/
theorem lookup_dictSet_ne {α : Type} (l : List (String × α)) (k k' : String) (v : α)
    (h : k' ≠ k) : List.lookup k' (dictSet l k v) = List.lookup k' l := by
  have hb : (k' == k) = false := beq_eq_false_iff_ne.mpr h
  induction l with
  | nil => simp [dictSet, List.lookup, hb]
  | cons p rest ih =>
    obtain ⟨k0, w⟩ := p
    by_cases h0 : k0 = k
    · subst h0
      simp [dictSet, List.lookup, hb]
    · cases hbk : (k' == k0) with
      | true => simp [dictSet, if_neg h0, List.lookup, hbk]
      | false => simp [dictSet, if_neg h0, List.lookup, hbk, ih]

/-- A key outside the key list is not found. -/
theorem lookup_eq_none_of_not_mem_keys {α : Type} (l : List (String × α)) (k : String)
    (h : k ∉ l.map Prod.fst) : List.lookup k l = none := by
  induction l with
  | nil => rfl
  | cons p rest ih =>
    obtain ⟨k0, w⟩ := p
    simp only [List.map, List.mem_cons, not_or] at h
    have hb : (k == k0) = false := beq_eq_false_iff_ne.mpr h.1
    simp [List.lookup, hb, ih h.2]

/-- With unique keys (a Python dict invariant), the erased key is no longer found. -/
theorem lookup_dictErase_self {α : Type} (l : List (String × α)) (k : String)
    (huniq : (l.map Prod.fst).Nodup) :
    List.lookup k (dictErase l k) = none := by
  induction l with
  | nil => rfl
  | cons p rest ih =>
    obtain ⟨k0, w⟩ := p
    simp only [List.map, List.nodup_cons] at huniq
    by_cases h0 : k0 = k
    · subst h0
      simp only [dictErase, if_pos rfl]
      exact lookup_eq_none_of_not_mem_keys rest k0 huniq.1
    · have hb : (k == k0) = false := beq_eq_false_iff_ne.mpr (fun hh => h0 hh.symm)
      simp [dictErase, if_neg h0, List.lookup, hb, ih huniq.2]

/-- Erasing an absent key is the identity. -/
theorem dictErase_absent {α : Type} (l : List (String × α)) (k : String)
    (h : List.lookup k l = none) : dictErase l k = l := by
  induction l with
  | nil => rfl
  | cons p rest ih =>
    obtain ⟨k0, w⟩ := p
    cases hbk : (k == k0) with
    | true =>
      exact absurd h (by simp [List.lookup, hbk])
    | false =>
      have hne : k0 ≠ k := fun hh => by simp [hh] at hbk
      simp only [List.lookup, hbk] at h
      simp [dictErase, if_neg hne, ih h]

/-- C10: removing a name registered neither locally nor as an MCP tool takes the final
`else` branch, which only logs a warning: the registry is returned unchanged, all four
maps included. -/
theorem claim10_remove_absent_noop (r : ToolRegistry) (name : String)
    (h1 : List.lookup name r.local_tools = none)
    (h2 : List.lookup name r.mcp_tools = none) :
    ToolRegistry.remove_tool r name = r := by
  simp [ToolRegistry.remove_tool, h1, h2]

/-- A concrete registry with one local tool and one MCP tool, for witnesses. -/
def sampleRegistry : ToolRegistry :=
  { local_tools :=
      [("add", { name := "add", description := "Add two numbers."
                 execute := fun _ => Except.error "unused" })]
    local_tool_defs :=
      [("add", { name := "add", description := "Add two numbers."
                 parameters_json_schema :=
                   { properties := [("a", [("type", JVal.jstr "integer")]),
                                    ("b", [("type", JVal.jstr "integer")])]
                     required := ["a", "b"] } })]
    mcp_tools :=
      [("echo", (0, { name := "echo", description := "Echo."
                      parameters_json_schema :=
                        { properties := [("text", [("type", JVal.jstr "string")])]
                          required := ["text"] } }))]
    all_tool_defs :=
      [("add", { name := "add", description := "Add two numbers."
                 parameters_json_schema :=
                   { properties := [("a", [("type", JVal.jstr "integer")]),
                                    ("b", [("type", JVal.jstr "integer")])]
                     required := ["a", "b"] } }),
       ("echo", { name := "echo", description := "Echo."
                  parameters_json_schema :=
                    { properties := [("text", [("type", JVal.jstr "string")])]
                      required := ["text"] } })] }

/-- C10 witness: removing the unregistered name "nope" from a populated registry. -/
theorem claim10_remove_absent_noop_witness :
    ToolRegistry.remove_tool sampleRegistry "nope" = sampleRegistry :=
  claim10_remove_absent_noop sampleRegistry "nope" rfl rfl

/-- C5: dispatching an unregistered name reaches the final `else` of
`ToolRegistry.execute_tool`, raising `ValueError("Tool ... not found")` with the
registry maps unchanged; at the agent level the error propagates after the `tool_call`
event was appended, so exactly that one event is appended and no `tool_response`
event ever is. -/
theorem claim5_unknown_tool
    (mcpExec : Nat → String → List (String × JVal) → Except String ToolResult)
    (serFn : ToolResult → JVal) (r : ToolRegistry) (t : Thread)
    (name : String) (args : List (String × JVal))
    (h1 : List.lookup name r.local_tools = none)
    (h2 : List.lookup name r.mcp_tools = none) :
    ToolRegistry.execute_tool mcpExec r name args =
        (Except.error (ToolExecError.unknownTool name), r) ∧
      Agent.execute_tool mcpExec serFn r t name args =
        (Except.error (ToolExecError.unknownTool name),
         t.add_event "tool_call"
           (JVal.jobj [("intent", JVal.jstr name), ("arguments", JVal.jobj args)]),
         r) := by
  have hreg : ToolRegistry.execute_tool mcpExec r name args =
      (Except.error (ToolExecError.unknownTool name), r) := by
    simp [ToolRegistry.execute_tool, h1, h2]
  refine ⟨hreg, ?_⟩
  simp [Agent.execute_tool, hreg]

/-- C5 witness: dispatching the name "nope" against the populated sample registry. -/
theorem claim5_unknown_tool_witness :
    ToolRegistry.execute_tool (fun _ _ _ => Except.error "unused") sampleRegistry
        "nope" [] =
        (Except.error (ToolExecError.unknownTool "nope"), sampleRegistry) ∧
      Agent.execute_tool (fun _ _ _ => Except.error "unused") (fun _ => JVal.jnull)
        sampleRegistry { thread_id := "t-w5", events := [], metadata := [] }
        "nope" [] =
        (Except.error (ToolExecError.unknownTool "nope"),
         Thread.add_event { thread_id := "t-w5", events := [], metadata := [] }
           "tool_call"
           (JVal.jobj [("intent", JVal.jstr "nope"), ("arguments", JVal.jobj [])]),
         sampleRegistry) :=
  claim5_unknown_tool _ _ sampleRegistry _ "nope" [] rfl rfl

/-- C8: in the disconnected state both operations raise
`RuntimeError("Not connected. Call connect() first.")` without any server
interaction; in the connected state they delegate to the underlying client. -/
theorem claim8_connection_gating (c : MCPClientState) (name : String)
    (args : Option (List (String × JVal))) :
    (c.connected = false →
      MCPConnectionManager.call_tool c name args =
          (Except.error "Not connected. Call connect() first.", []) ∧
        MCPConnectionManager.list_tools c =
          (Except.error "Not connected. Call connect() first.", [])) ∧
    (c.connected = true →
      MCPConnectionManager.call_tool c name args =
          (Except.ok (c.serverCallResult name args), [ServerOp.callToolOp name args]) ∧
        MCPConnectionManager.list_tools c =
          (Except.ok c.serverTools, [ServerOp.listToolsOp])) := by
  constructor
  · intro h
    constructor
    · simp [MCPConnectionManager.call_tool, h]
    · simp [MCPConnectionManager.list_tools, h]
  · intro h
    constructor
    · simp [MCPConnectionManager.call_tool, h]
    · simp [MCPConnectionManager.list_tools, h]

/-- C8 witness: a disconnected and a connected client, evaluated concretely. -/
theorem claim8_connection_gating_witness :
    (MCPConnectionManager.call_tool
        { connected := false, serverTools := []
          serverCallResult := fun _ _ => PyVal.pyNone } "echo" none =
        (Except.error "Not connected. Call connect() first.", []) ∧
      MCPConnectionManager.list_tools
        { connected := false, serverTools := []
          serverCallResult := fun _ _ => PyVal.pyNone } =
        (Except.error "Not connected. Call connect() first.", [])) ∧
    (MCPConnectionManager.call_tool
        { connected := true, serverTools := []
          serverCallResult := fun _ _ => PyVal.pyStr "hello" } "echo" none =
        (Except.ok (PyVal.pyStr "hello"), [ServerOp.callToolOp "echo" none])) :=
  ⟨(claim8_connection_gating
      { connected := false, serverTools := []
        serverCallResult := fun _ _ => PyVal.pyNone } "echo" none).1 rfl,
   ((claim8_connection_gating
      { connected := true, serverTools := []
        serverCallResult := fun _ _ => PyVal.pyStr "hello" } "echo" none).2 rfl).1⟩

/-- C9: evaluating `serialize_mcp_result` at an object whose `data` attribute is a
plain object shows the `.data` branch returning that inner object unchanged — a value
outside the `dict | str | float | int | list | None` return type that the function's
own docstring and annotation promise. -/
theorem claim9_data_attribute_escape :
    serialize_mcp_result (fun _ => none)
        (PyVal.pyDataObj (PyVal.pyOpaque "<object object at 0x7f>")) =
        PyVal.pyOpaque "<object object at 0x7f>" ∧
      PyVal.isTopSerializable (PyVal.pyOpaque "<object object at 0x7f>") = false :=
  ⟨rfl, rfl⟩

/-- C4, counterexample: for a schema with property `a` and an empty `required` list,
the created model still marks `a` required (`(annotation, ...)`), so "required in the
model iff listed in the schema's required set" is false on the code; the spec-worded
model construction disagrees with the code on this input. -/
theorem claim4_counterexample :
    (create_model_from_tool_schema cexToolDefC4).fields =
        [{ name := "a", fieldType := PyFieldType.strT, required := true }] ∧
      cexToolDefC4.parameters_json_schema.required.contains "a" = false ∧
      (createModelSpec cexToolDefC4).fields =
        [{ name := "a", fieldType := PyFieldType.strT, required := false }] :=
  ⟨rfl, rfl, rfl⟩

/-- C4, amended: the created model's properties exactly mirror
`parameters_json_schema.properties` with the stated type mapping
(integer→int, number→float, string→str, boolean→bool, array→list, object→dict,
anything else→Any), but EVERY property is declared required — the schema's `required`
set is ignored. -/
theorem claim4_model_fields_amended (td : ToolDefinition) :
    (create_model_from_tool_schema td).model_name = td.name.replace " " "_" ∧
      (create_model_from_tool_schema td).fields.map ModelField.name =
        td.parameters_json_schema.properties.map Prod.fst ∧
      (∀ n fs, (n, fs) ∈ td.parameters_json_schema.properties →
        { name := n, fieldType := annotationFor fs, required := true } ∈
          (create_model_from_tool_schema td).fields) ∧
      (∀ f ∈ (create_model_from_tool_schema td).fields, f.required = true) ∧
      (∀ fs : List (String × JVal),
        (List.lookup "type" fs = some (JVal.jstr "integer") →
          annotationFor fs = PyFieldType.intT) ∧
        (List.lookup "type" fs = some (JVal.jstr "number") →
          annotationFor fs = PyFieldType.floatT) ∧
        (List.lookup "type" fs = some (JVal.jstr "string") →
          annotationFor fs = PyFieldType.strT) ∧
        (List.lookup "type" fs = some (JVal.jstr "boolean") →
          annotationFor fs = PyFieldType.boolT) ∧
        (List.lookup "type" fs = some (JVal.jstr "array") →
          annotationFor fs = PyFieldType.listT) ∧
        (List.lookup "type" fs = some (JVal.jstr "object") →
          annotationFor fs = PyFieldType.dictT) ∧
        (List.lookup "type" fs = none → annotationFor fs = PyFieldType.anyT)) := by
  refine ⟨rfl, ?_, ?_, ?_, ?_⟩
  · simp [create_model_from_tool_schema]
  · intro n fs hmem
    simp only [create_model_from_tool_schema]
    exact List.mem_map.mpr ⟨(n, fs), hmem, rfl⟩
  · intro f hf
    simp only [create_model_from_tool_schema] at hf
    obtain ⟨p, -, hp⟩ := List.mem_map.mp hf
    rw [← hp]
  · intro fs
    refine ⟨?_, ?_, ?_, ?_, ?_, ?_, ?_⟩ <;>
      (intro h; simp [annotationFor, h])

/-- C4 witness: the amended statement evaluated at the sample registry's `add` tool
definition (integer properties, both required). -/
theorem claim4_model_fields_amended_witness :
    { name := "a", fieldType := annotationFor [("type", JVal.jstr "integer")],
      required := true } ∈
        (create_model_from_tool_schema
          { name := "add", description := "Add two numbers."
            parameters_json_schema :=
              { properties := [("a", [("type", JVal.jstr "integer")]),
                               ("b", [("type", JVal.jstr "integer")])]
                required := ["a", "b"] } }).fields ∧
      annotationFor [("type", JVal.jstr "integer")] = PyFieldType.intT :=
  ⟨(claim4_model_fields_amended _).2.2.1 "a" [("type", JVal.jstr "integer")]
     (by simp),
   ((claim4_model_fields_amended
      { name := "add", description := "Add two numbers."
        parameters_json_schema :=
          { properties := [("a", [("type", JVal.jstr "integer")]),
                           ("b", [("type", JVal.jstr "integer")])]
            required := ["a", "b"] } }).2.2.2.2
      [("type", JVal.jstr "integer")]).1 rfl⟩

/-- Characterization of the `tool_results` dict built by
`Agent._generate_final_response`: a key holds the data of the LAST `tool_response` /
`user_input` event of that type (later assignments overwrite), and no other key ever
appears. -/
theorem lookup_collect_fold (events : List Event) (acc : List (String × JVal))
    (ty : String) :
    List.lookup ty (events.foldl
        (fun acc e =>
          if e.type = "tool_response" ∨ e.type = "user_input" then
            dictSet acc e.type e.data
          else acc) acc) =
      if ty = "tool_response" ∨ ty = "user_input" then
        match (events.filter (fun e => e.type == ty)).getLast? with
        | some e => some e.data
        | none => List.lookup ty acc
      else List.lookup ty acc := by
  induction events using List.reverseRecOn generalizing acc with
  | nil =>
    by_cases hcol : ty = "tool_response" ∨ ty = "user_input"
    · simp [if_pos hcol]
    · simp [if_neg hcol]
  | append_singleton es e ih =>
    rw [List.foldl_append, List.foldl_cons, List.foldl_nil, List.filter_append]
    by_cases hcol : ty = "tool_response" ∨ ty = "user_input"
    · rw [if_pos hcol]
      cases hpe : (e.type == ty) with
      | true =>
        have hty : e.type = ty := by simpa using hpe
        have hecol : e.type = "tool_response" ∨ e.type = "user_input" := by
          rw [hty]; exact hcol
        rw [if_pos hecol, hty]
        have hfil : List.filter (fun e => e.type == ty) [e] = [e] := by
          simp [List.filter, hpe]
        rw [hfil, List.getLast?_concat, lookup_dictSet_self]
      | false =>
        have hfil : List.filter (fun e => e.type == ty) [e] = [] := by
          simp [List.filter, hpe]
        rw [hfil, List.append_nil]
        by_cases hecol : e.type = "tool_response" ∨ e.type = "user_input"
        · rw [if_pos hecol]
          have hne : ty ≠ e.type := fun hh => by simp [hh] at hpe
          rw [lookup_dictSet_ne _ _ _ _ hne]
          rw [ih acc, if_pos hcol]
        · rw [if_neg hecol]
          rw [ih acc, if_pos hcol]
    · rw [if_neg hcol]
      by_cases hecol : e.type = "tool_response" ∨ e.type = "user_input"
      · rw [if_pos hecol]
        have hne : ty ≠ e.type := by
          intro hh
          rw [hh] at hcol
          exact hcol hecol
        rw [lookup_dictSet_ne _ _ _ _ hne]
        rw [ih acc, if_neg hcol]
      · rw [if_neg hecol]
        rw [ih acc, if_neg hcol]

/-- A thread with two `user_input` events carrying different data. -/
def cexThreadC6 : Thread :=
  { thread_id := "t-c6"
    events := [{ type := "user_input", data := JVal.jstr "a" },
               { type := "user_input", data := JVal.jstr "b" }]
    metadata := [] }

/-- C6, counterexample: with two `user_input` events, the appended final event's
`raw_results` holds only the LAST one's data (`"b"`), so it does not collect ALL
`user_input` events — the first one's data `"a"` is absent from the mapping. -/
theorem claim6_counterexample :
    (Agent.generate_final_response cexThreadC6 "msg" none).events.getLast? =
        some { type := "llm_response"
               data := JVal.jobj [("intent", JVal.jstr "final_response"),
                                  ("message", JVal.jstr "msg"),
                                  ("raw_results",
                                    JVal.jobj [("user_input", JVal.jstr "b")])] } ∧
      { type := "user_input", data := JVal.jstr "a" } ∈ cexThreadC6.events ∧
      JVal.jstr "b" ≠ JVal.jstr "a" := by
  refine ⟨rfl, by simp [cexThreadC6], ?_⟩
  intro h
  injection h with h2
  exact absurd h2 (by decide)

/-- C6, amended: the final event is an `llm_response` whose data carries
`intent = "final_response"`, the message, and a `raw_results` mapping in which each of
the types `user_input` and `tool_response` that occurs in the thread is keyed to the
data of the LAST event of that type (later events of the same type overwrite earlier
ones), and no other key occurs. -/
theorem claim6_final_response_amended (t : Thread) (message : String)
    (summary : Option String) :
    (∃ fields,
      Agent.generate_final_response t message summary =
          { t with events := t.events ++
              [{ type := "llm_response", data := JVal.jobj fields }] } ∧
        List.lookup "intent" fields = some (JVal.jstr "final_response") ∧
        List.lookup "message" fields = some (JVal.jstr message) ∧
        List.lookup "raw_results" fields =
          some (JVal.jobj (collectRawResults t.events))) ∧
      ∀ ty, List.lookup ty (collectRawResults t.events) =
        if ty = "tool_response" ∨ ty = "user_input" then
          match (t.events.filter (fun e => e.type == ty)).getLast? with
          | some e => some e.data
          | none => none
        else none := by
  constructor
  · cases summary with
    | none => exact ⟨_, rfl, rfl, rfl, rfl⟩
    | some s => exact ⟨_, rfl, rfl, rfl, rfl⟩
  · intro ty
    have h := lookup_collect_fold t.events [] ty
    rw [collectRawResults, h]
    by_cases hcol : ty = "tool_response" ∨ ty = "user_input"
    · rw [if_pos hcol, if_pos hcol]
      cases (t.events.filter (fun e => e.type == ty)).getLast? <;> rfl
    · rw [if_neg hcol, if_neg hcol]
      rfl

/-- A thread holding one event with `data=None`. -/
def cexThreadC7 : Thread :=
  { thread_id := "t-c7"
    events := [{ type := "tool_call", data := JVal.jnull }]
    metadata := [] }

/-- C7, counterexample: on the file backend, after `set` of a thread holding a
`data=None` event, `get` of its id raises a validation error instead of returning the
snapshot (the stored JSON lacks the required `data` key), so "get returns a snapshot
equal to the last one set" fails for this backend and thread. -/
theorem claim7_counterexample :
    ConversationMemoryStore.setFile { files := [] } cexThreadC7 =
        Except.ok { files := [("t-c7", Thread.to_json cexThreadC7)] } ∧
      ConversationMemoryStore.getFile
          { files := [("t-c7", Thread.to_json cexThreadC7)] } "t-c7" "fresh" =
        Except.error "validation error: Event.data field required" ∧
      ConversationMemoryStore.getFile
          { files := [("t-c7", Thread.to_json cexThreadC7)] } "t-c7" "fresh" ≠
        Except.ok (some cexThreadC7) := by
  have h0 : ConversationMemoryStore.getFile
      { files := [("t-c7", Thread.to_json cexThreadC7)] } "t-c7" "fresh" =
      Except.error "validation error: Event.data field required" := rfl
  refine ⟨rfl, h0, ?_⟩
  intro h
  exact Except.noConfusion (h0.symm.trans h)

/-- C7, amended: for each backend, `set` then `get` of the same id returns exactly the
thread last set — unconditionally for the document (mongo) backend, and for the file
and SQL backends provided every event's data is non-`None` (a `data=None` event makes
`get` raise instead); `get` of an id never set or just deleted returns the missing
sentinel `None`; and `delete` of an absent id raises no error and changes nothing.
Store key lists are unique (a dict/file-system/primary-key invariant). -/
theorem claim7_store_amended
    (fileSt : FileStoreState) (sqlSt : SqlStoreState) (mongoSt : MongoStoreState)
    (t t2 : Thread) (freshId tid : String)
    (hid : t.thread_id ≠ "") (hid2 : t2.thread_id ≠ "")
    (hnn : ∀ e ∈ t.events, e.data ≠ JVal.jnull)
    (hfk : (fileSt.files.map Prod.fst).Nodup)
    (hsk : (sqlSt.rows.map Prod.fst).Nodup)
    (hmk : (mongoSt.docs.map Prod.fst).Nodup) :
    (∀ st', ConversationMemoryStore.setFile fileSt t = Except.ok st' →
      ConversationMemoryStore.getFile st' t.thread_id freshId =
        Except.ok (some t)) ∧
      (∀ st', ConversationMemoryStore.setSql sqlSt t = Except.ok st' →
        ConversationMemoryStore.getSql st' t.thread_id freshId =
          Except.ok (some t)) ∧
      (∀ st', ConversationMemoryStore.setMongo mongoSt t2 = Except.ok st' →
        ConversationMemoryStore.getMongo st' t2.thread_id freshId =
          Except.ok (some t2)) ∧
      ConversationMemoryStore.getFile { files := [] } tid freshId =
        Except.ok none ∧
      ConversationMemoryStore.getSql { rows := [] } tid freshId =
        Except.ok none ∧
      ConversationMemoryStore.getMongo { docs := [] } tid freshId =
        Except.ok none ∧
      ConversationMemoryStore.getFile
          (ConversationMemoryStore.deleteFile fileSt tid) tid freshId =
        Except.ok none ∧
      ConversationMemoryStore.getSql
          (ConversationMemoryStore.deleteSql sqlSt tid) tid freshId =
        Except.ok none ∧
      ConversationMemoryStore.getMongo
          (ConversationMemoryStore.deleteMongo mongoSt tid) tid freshId =
        Except.ok none ∧
      (List.lookup tid fileSt.files = none →
        ConversationMemoryStore.deleteFile fileSt tid = fileSt) ∧
      (List.lookup tid sqlSt.rows = none →
        ConversationMemoryStore.deleteSql sqlSt tid = sqlSt) ∧
      (List.lookup tid mongoSt.docs = none →
        ConversationMemoryStore.deleteMongo mongoSt tid = mongoSt) := by
  refine ⟨?_, ?_, ?_, rfl, rfl, rfl, ?_, ?_, ?_, ?_, ?_, ?_⟩
  · intro st' h
    rw [ConversationMemoryStore.setFile, if_neg hid] at h
    injection h with h
    subst h
    simp [ConversationMemoryStore.getFile, lookup_dictSet_self,
      thread_toJson_ofDict t freshId hnn, Thread.from_json]
    rfl
  · intro st' h
    rw [ConversationMemoryStore.setSql, if_neg hid] at h
    injection h with h
    subst h
    simp [ConversationMemoryStore.getSql, lookup_dictSet_self,
      thread_toJson_ofDict t freshId hnn, Thread.from_json]
    rfl
  · intro st' h
    rw [ConversationMemoryStore.setMongo, if_neg hid2] at h
    injection h with h
    subst h
    simp [ConversationMemoryStore.getMongo, lookup_dictSet_self,
      thread_dump_ofDict t2 freshId]
    rfl
  · simp [ConversationMemoryStore.getFile, ConversationMemoryStore.deleteFile,
      lookup_dictErase_self _ _ hfk]
  · simp [ConversationMemoryStore.getSql, ConversationMemoryStore.deleteSql,
      lookup_dictErase_self _ _ hsk]
  · simp [ConversationMemoryStore.getMongo, ConversationMemoryStore.deleteMongo,
      lookup_dictErase_self _ _ hmk]
  · intro h
    rw [ConversationMemoryStore.deleteFile, dictErase_absent _ _ h]
  · intro h
    rw [ConversationMemoryStore.deleteSql, dictErase_absent _ _ h]
  · intro h
    rw [ConversationMemoryStore.deleteMongo, dictErase_absent _ _ h]

/-- A thread with ordinary data, stored in witnesses. -/
def wThreadC7 : Thread :=
  { thread_id := "t-w7"
    events := [{ type := "user_input", data := JVal.jstr "hi" },
               { type := "tool_response"
                 data := JVal.jobj [("response", JVal.jnum 7)] }]
    metadata := [] }

/-- A thread holding a `data=None` event, for the mongo (document) backend. -/
def wThreadC7b : Thread :=
  { thread_id := "t-w7b"
    events := [{ type := "tool_call", data := JVal.jnull }]
    metadata := [] }

/-- C7 witness: set-then-get on the file backend returns the stored thread; the
document backend round-trips even a `data=None` thread; deleting an absent id from an
empty SQL store is a no-op. -/
theorem claim7_store_amended_witness :
    ConversationMemoryStore.getFile
        { files := [("t-w7", Thread.to_json wThreadC7)] } "t-w7" "w" =
        Except.ok (some wThreadC7) ∧
      ConversationMemoryStore.getMongo
        { docs := [("t-w7b", Thread.dump wThreadC7b)] } "t-w7b" "w" =
        Except.ok (some wThreadC7b) ∧
      ConversationMemoryStore.deleteSql { rows := [] } "gone" = { rows := [] } := by
  have h := claim7_store_amended { files := [] } { rows := [] } { docs := [] }
    wThreadC7 wThreadC7b "w" "gone"
    (by intro hh; exact absurd hh (by decide))
    (by intro hh; exact absurd hh (by decide))
    (by
      intro e he
      simp only [wThreadC7, List.mem_cons, List.not_mem_nil, or_false] at he
      rcases he with he | he <;> (subst he; intro hc; exact JVal.noConfusion hc))
    (by simp) (by simp) (by simp)
  exact ⟨h.1 _ rfl, h.2.2.1 _ rfl, h.2.2.2.2.2.2.2.2.2.2.1 rfl⟩

/-- Every snapshot yielded by the loop body extends the previous one by appended
events only: selection, parameter fill, dispatch and final response all go through
`add_event`, and nothing in the body removes events. -/
theorem agentLoopSteps_chain (reg : ToolRegistry) :
    ∀ (plans : List IterPlan) (t : Thread),
      List.Chain' eventsExtend (t :: agentLoopSteps reg t plans) := by
  intro plans
  induction plans with
  | nil =>
    intro t
    simp [agentLoopSteps]
  | cons p rest ih =>
    intro t
    unfold agentLoopSteps
    dsimp only
    by_cases hv : (((reg.all_tool_defs.map Prod.fst) ++
        ["done", "clarification"]).contains p.intent) = true
    · rw [if_pos hv]
      by_cases hd : p.intent = "done"
      · rw [if_pos hd]
        exact List.chain'_cons.mpr ⟨⟨_, rfl⟩,
          List.chain'_cons.mpr ⟨⟨_, rfl⟩, List.chain'_singleton _⟩⟩
      · rw [if_neg hd]
        by_cases hc : p.intent = "clarification"
        · rw [if_pos hc]
          exact List.chain'_cons.mpr ⟨⟨_, rfl⟩,
            List.chain'_cons.mpr ⟨⟨[], by simp⟩, List.chain'_singleton _⟩⟩
        · rw [if_neg hc]
          cases hres : p.toolResult with
          | error e =>
            exact List.chain'_cons.mpr ⟨⟨_, rfl⟩,
              List.chain'_cons.mpr ⟨⟨_, rfl⟩, List.chain'_singleton _⟩⟩
          | ok v =>
            refine List.chain'_cons.mpr ⟨⟨_, rfl⟩,
              List.chain'_cons.mpr ⟨⟨_, rfl⟩,
                List.chain'_cons.mpr ⟨⟨_, List.append_assoc _ _ _⟩, ih _⟩⟩⟩
    · rw [if_neg hv]
      exact List.chain'_singleton _

/-- C3: on entry the events are compacted exactly when the (positive, per §4.6)
threshold is set and exceeded; compaction replaces the events by one
`context_summary` event followed by the last 5 prior events; and every later yielded
snapshot only ever extends the previous one by appended events — no loop operation
after entry removes events. -/
theorem claim3_agent_loop_compaction (cfg : AgentConfig) (reg : ToolRegistry)
    (t : Thread) (s : String) (plans : List IterPlan)
    (hpos : ∀ m, cfg.max_events_before_summarization = some m → 0 < m) :
    ∃ t0 rest,
      Agent.agent_loop cfg reg t s plans = t0 :: rest ∧
        (entrySummarizationCond cfg t = true →
          t0.events = { type := "context_summary", data := JVal.jstr s }
            :: t.events.drop (t.events.length - 5)) ∧
        (entrySummarizationCond cfg t = false → t0 = t) ∧
        (entrySummarizationCond cfg t = true ↔
          ∃ m, cfg.max_events_before_summarization = some m ∧
            m < (t.events.length : Int)) ∧
        List.Chain' eventsExtend (t0 :: rest) := by
  refine ⟨(if entrySummarizationCond cfg t then
            Agent.summarize_thread_with_llm t s else t),
          agentLoopSteps reg
            (if entrySummarizationCond cfg t then
              Agent.summarize_thread_with_llm t s else t) plans,
          rfl, ?_, ?_, ?_, ?_⟩
  · intro h
    rw [if_pos h]
    rfl
  · intro h
    rw [if_neg (by simp [h])]
  · cases hmx : cfg.max_events_before_summarization with
    | none => simp [entrySummarizationCond, hmx]
    | some m =>
      simp only [entrySummarizationCond, hmx, Bool.and_eq_true, decide_eq_true_eq,
        Option.some.injEq]
      constructor
      · rintro ⟨-, h2⟩
        exact ⟨m, rfl, h2⟩
      · rintro ⟨m', rfl, h2⟩
        exact ⟨(hpos m hmx).ne', h2⟩
  · exact agentLoopSteps_chain reg plans _

/-- A configuration with a summarization threshold of 2 events. -/
def wCfgC3 : AgentConfig :=
  { model := "openai-mini", system_prompt := "You are an autonomous agent."
    max_events_before_summarization := some 2 }

/-- A three-event thread, exceeding the threshold of 2. -/
def wThreadC3 : Thread :=
  { thread_id := "t-w3"
    events := [{ type := "user_input", data := JVal.jstr "q1" },
               { type := "llm_response", data := JVal.jobj [("intent", JVal.jstr "done")] },
               { type := "user_input", data := JVal.jstr "q2" }]
    metadata := [] }

/-- C3 witness: the compaction statement instantiated at a threshold of 2, a
three-event thread, and an exhausted oracle. -/
theorem claim3_agent_loop_compaction_witness :
    ∃ t0 rest,
      Agent.agent_loop wCfgC3 sampleRegistry wThreadC3 "sum" [] = t0 :: rest ∧
        (entrySummarizationCond wCfgC3 wThreadC3 = true →
          t0.events = { type := "context_summary", data := JVal.jstr "sum" }
            :: wThreadC3.events.drop (wThreadC3.events.length - 5)) ∧
        (entrySummarizationCond wCfgC3 wThreadC3 = false → t0 = wThreadC3) ∧
        (entrySummarizationCond wCfgC3 wThreadC3 = true ↔
          ∃ m, wCfgC3.max_events_before_summarization = some m ∧
            m < (wThreadC3.events.length : Int)) ∧
        List.Chain' eventsExtend (t0 :: rest) :=
  claim3_agent_loop_compaction wCfgC3 sampleRegistry wThreadC3 "sum" []
    (by
      intro m hm
      injection hm with h
      omega)
